import Mathlib

/-!
Shallow embedding of the `deel-api-task` Express/Sequelize backend
(`src/unnamed/part_000` — the route handlers — and `src/src/utils.js`).

Entities mirror the Sequelize models the handlers read and write through
(`Profile`, `Contract`, `Job`); the database is a triple of row lists and
each route handler is a pure function from a database (plus the
middleware-resolved `req.profile` and the request parameters) to a
response and an updated database.  JavaScript numbers that can become
`NaN`/`undefined` through the handlers' arithmetic are modelled by `JNum`;
everywhere else monetary amounts are rationals.
-/

namespace DeelApi

/-- A JavaScript numeric value as the handlers can observe it: either an
ordinary number (modelled as a rational) or the not-a-number value that
arises from arithmetic on `undefined`/`NaN`.  Comparisons involving `nan`
are false, and arithmetic involving `nan` yields `nan`, as in JavaScript. -/
inductive JNum where
  | num (q : ℚ)
  | nan
deriving DecidableEq, Repr

/-- JavaScript addition on `JNum`. -/
def JNum.add : JNum → JNum → JNum
  | .num a, .num b => .num (a + b)
  | _, _ => .nan

/-- JavaScript subtraction on `JNum`. -/
def JNum.sub : JNum → JNum → JNum
  | .num a, .num b => .num (a - b)
  | _, _ => .nan

/-- The JavaScript comparison `q > x` for a plain number `q` and a `JNum`
`x`; any comparison against `nan` is false. -/
def JNum.gtNum (q : ℚ) : JNum → Bool
  | .num b => decide (b < q)
  | .nan => false

/-- Whether a stored balance is a non-negative number (`nan` is not). -/
def JNum.nonnegB : JNum → Bool
  | .num q => decide (0 ≤ q)
  | .nan => false

/-- A row of the `Profiles` table. -/
structure Profile where
  id : Nat
  ptype : String
  firstName : String
  lastName : String
  profession : String
  balance : JNum
deriving DecidableEq, Repr

/-- A row of the `Contracts` table. -/
structure Contract where
  id : Nat
  clientId : Nat
  contractorId : Nat
  status : String
deriving DecidableEq, Repr

/-- A row of the `Jobs` table.  `paymentDate` is an order-preserving
numeric code of the timestamp. -/
structure Job where
  id : Nat
  contractId : Nat
  price : ℚ
  paid : Option Bool
  depositPaid : Option Bool
  paymentDate : Option Nat
deriving DecidableEq, Repr

/-- The relational store the handlers query and update. -/
structure DB where
  profiles : List Profile
  contracts : List Contract
  jobs : List Job
deriving DecidableEq, Repr

/-- `Profile.findOne({where: {id}})`: first profile row with the given id. -/
def DB.findProfile (db : DB) (pid : Nat) : Option Profile :=
  db.profiles.find? (fun p => p.id == pid)

/-- `Profile.update({balance}, {where: {id}})`: set the balance of every
profile row with the given id. -/
def DB.updateBalance (db : DB) (pid : Nat) (b : JNum) : DB :=
  { db with profiles :=
      db.profiles.map (fun p => if p.id == pid then { p with balance := b } else p) }

/-- First job row with the given id. -/
def DB.findJob (db : DB) (jid : Nat) : Option Job :=
  db.jobs.find? (fun j => j.id == jid)

/-- `job.update({paid: true, paymentDate: moment()})` on the rows with the
given id. -/
def DB.markJobPaid (db : DB) (jid : Nat) (now : Nat) : DB :=
  { db with jobs :=
      db.jobs.map (fun j =>
        if j.id == jid then { j with paid := some true, paymentDate := some now } else j) }

/-- `job.update({depositPaid: true})` on the rows with the given id. -/
def DB.markDepositPaid (db : DB) (jid : Nat) : DB :=
  { db with jobs :=
      db.jobs.map (fun j => if j.id == jid then { j with depositPaid := some true } else j) }

/-! ## POST /jobs/:job_id/pay -/

/-- The `Job.findOne` of the pay handler: the job with the requested id,
inner-joined (`include` with a `where`) to its contract restricted to
`ClientId = req.profile.id`.  Yields the job together with that contract. -/
def findJobForPay (db : DB) (me jobId : Nat) : Option (Job × Contract) :=
  (db.jobs.filterMap (fun j =>
      (db.contracts.find? (fun c => c.id == j.contractId && c.clientId == me)).map
        (fun c => (j, c)))).find?
    (fun jc => jc.1.id == jobId)

/-- Responses of the pay handler.  `thrownTypeError` is the path where the
handler body throws (dereferencing a property of `null`/`undefined`) and
the `.catch` wraps the error: HTTP 400 with the wrapped error's message. -/
inductive PayResp where
  | success
  | noJobFound
  | alreadyPaid
  | insufficientFunds
  | thrownTypeError
deriving DecidableEq, Repr

/-- HTTP status of each pay response. -/
def payStatus : PayResp → Nat
  | .success => 200
  | _ => 400

/-- The fixed message literal of each pay response; the thrown-error path
carries the wrapped error's text, which is none of the fixed literals. -/
def payMessage : PayResp → Option String
  | .success => some "Paid successfully"
  | .noJobFound => some "No Job found"
  | .alreadyPaid => some "Job already paid"
  | .insufficientFunds => some "Insufficient funds"
  | .thrownTypeError => none

/-- The `POST /jobs/:job_id/pay` handler.  When `findOne` yields no row the
source reads `job.Contract.Client` before its `if (!job)` check, so the
no-job path throws a TypeError and answers through the catch, never
reaching the `No Job found` response.  On success the source issues three
updates in order: credit the contractor from the balance read at query
time, debit the client (`where id = req.profile.id`) from the balance read
at query time, then mark the job paid. -/
def payHandler (db : DB) (me jobId now : Nat) : PayResp × DB :=
  match findJobForPay db me jobId with
  | none => (.thrownTypeError, db)
  | some (job, c) =>
    if job.paid == some true then (.alreadyPaid, db)
    else
      match db.findProfile c.clientId with
      | none => (.thrownTypeError, db)
      | some client =>
        if JNum.gtNum job.price client.balance then (.insufficientFunds, db)
        else
          match db.findProfile c.contractorId with
          | none => (.thrownTypeError, db)
          | some contractor =>
            let db1 := db.updateBalance contractor.id (contractor.balance.add (.num job.price))
            let db2 := db1.updateBalance me (client.balance.sub (.num job.price))
            let db3 := db2.markJobPaid job.id now
            (.success, db3)

/-! ## POST /balances/deposit/:userId -/

/-- The `Job.findAll` of the deposit handler: jobs with `paid` not true and
`depositPaid` not true, inner-joined to a contract with
`ContractorId = userId`, `ClientId = req.profile.id` and status not
`terminated`; the included `Contractor` profile is the row as loaded at
query time (a snapshot), paired with each job. -/
def depositCandidates (db : DB) (me userId : Nat) : List (Job × Contract × Profile) :=
  db.jobs.filterMap (fun j =>
    if j.paid != some true && j.depositPaid != some true then
      match db.contracts.find? (fun c =>
          c.id == j.contractId && c.contractorId == userId && c.clientId == me &&
          c.status != "terminated") with
      | some c => (db.findProfile c.contractorId).map (fun contractor => (j, c, contractor))
      | none => none
    else none)

/-- Responses of the deposit handler. -/
inductive DepResp where
  | noJobs
  | ok (jobs : Nat) (paid : ℚ) (totalJobsPaid : Nat)
deriving DecidableEq, Repr

/-- HTTP status of each deposit response. -/
def depStatus : DepResp → Nat
  | .noJobs => 400
  | .ok _ _ _ => 200

/-- Message literal of each deposit response. -/
def depMessage : DepResp → String
  | .noJobs => "No Jobs to pay"
  | .ok _ _ _ => "Deposit paid"

/-- The loop body of the deposit handler.  `profileBal` is the value the
JavaScript expression `profile.balance` evaluates to: initially the
balance of `req.profile`; after the first processed job the source
reassigns `profile` to the result of `Profile.update` (an affected-row
count, not a profile), so from then on `profile.balance` is `undefined`
and behaves as `nan` in the guard and the subtraction.  The contractor
credit always starts from the contractor balance snapshotted at
`findAll` time. -/
def depositLoop (me : Nat) :
    List (Job × Contract × Profile) → DB → JNum → ℚ → Nat → DB × ℚ × Nat
  | [], db, _, totalPaid, totalJobsPaid => (db, totalPaid, totalJobsPaid)
  | (job, _, contractor) :: rest, db, profileBal, totalPaid, totalJobsPaid =>
    let depositAmount := 25 / 100 * job.price
    if JNum.gtNum depositAmount profileBal then
      depositLoop me rest db profileBal totalPaid totalJobsPaid
    else
      let db1 := db.updateBalance me (profileBal.sub (.num depositAmount))
      let db2 := db1.updateBalance contractor.id (contractor.balance.add (.num depositAmount))
      let db3 := db2.markDepositPaid job.id
      depositLoop me rest db3 JNum.nan (totalPaid + depositAmount) (totalJobsPaid + 1)

/-- The `POST /balances/deposit/:userId` handler.  `reqp` is the caller's
profile as resolved by the `getProfile` middleware. -/
def depositHandler (db : DB) (reqp : Profile) (userId : Nat) : DepResp × DB :=
  let jobs := depositCandidates db reqp.id userId
  if jobs.length == 0 then (.noJobs, db)
  else
    let r := depositLoop reqp.id jobs db reqp.balance 0 0
    (.ok jobs.length r.2.1 r.2.2, r.1)

/-! ## Ownership filter, GET /contracts and GET /jobs/unpaid -/

/-- The duplicated client/contractor branch the source builds its `where`
parameters from: `ClientId = profile.id` when the profile's type is
`client`, else `ContractorId = profile.id`. -/
def ownsContractFilter (p : Profile) (c : Contract) : Bool :=
  if p.ptype == "client" then c.clientId == p.id else c.contractorId == p.id

/-- The `GET /contracts` handler: contracts with status not `terminated`
owned by the caller. -/
def contractsHandler (db : DB) (p : Profile) : List Contract :=
  db.contracts.filter (fun c => c.status != "terminated" && ownsContractFilter p c)

/-- The `GET /jobs/unpaid` handler: jobs with `paid` not true whose
inner-joined contract has status `in_progress` and is owned by the
caller. -/
def unpaidJobsHandler (db : DB) (p : Profile) : List Job :=
  db.jobs.filter (fun j =>
    j.paid != some true &&
      db.contracts.any (fun c =>
        c.id == j.contractId && c.status == "in_progress" && ownsContractFilter p c))

/-- Spec-side ownership predicate: an actor owns a contract when they are
its client (if the actor is a client) or its contractor (otherwise). -/
def ownsSpec (p : Profile) (c : Contract) : Prop :=
  if p.ptype = "client" then c.clientId = p.id else c.contractorId = p.id

/-! ## Date handling (`src/src/utils.js` and moment) -/

/-- Whether a character is a decimal digit, as moment's token matcher
accepts one. -/
def isDigitCh (c : Char) : Bool :=
  c == '0' || c == '1' || c == '2' || c == '3' || c == '4' ||
  c == '5' || c == '6' || c == '7' || c == '8' || c == '9'

/-- Numeric value of a digit character. -/
def digitVal (c : Char) : Nat := c.toNat - 48

/-- Strict field extraction of a `MM-DD-YYYY` string: exactly two digits,
a dash, two digits, a dash, four digits. -/
def parseFieldsL : List Char → Option (Nat × Nat × Nat)
  | [m1, m2, '-', d1, d2, '-', y1, y2, y3, y4] =>
    if isDigitCh m1 && isDigitCh m2 && isDigitCh d1 && isDigitCh d2 &&
        isDigitCh y1 && isDigitCh y2 && isDigitCh y3 && isDigitCh y4 then
      some (10 * digitVal m1 + digitVal m2,
            10 * digitVal d1 + digitVal d2,
            1000 * digitVal y1 + 100 * digitVal y2 + 10 * digitVal y3 + digitVal y4)
    else none
  | _ => none

/-- Strict field extraction on strings. -/
def parseMMDDYYYY (s : String) : Option (Nat × Nat × Nat) :=
  parseFieldsL s.data

/-- Gregorian leap-year rule, as moment applies it. -/
def isLeapYear (y : Nat) : Bool :=
  (y % 4 == 0 && y % 100 != 0) || y % 400 == 0

/-- Days in a month of a given year. -/
def daysInMonth (y m : Nat) : Nat :=
  if m == 2 then (if isLeapYear y then 29 else 28)
  else if m == 4 || m == 6 || m == 9 || m == 11 then 30
  else 31

/-- Whether month/day/year form a valid calendar date. -/
def validCalendar (m d y : Nat) : Bool :=
  decide (1 ≤ m) && decide (m ≤ 12) && decide (1 ≤ d) && decide (d ≤ daysInMonth y m)

/-- `validateDate` from `src/src/utils.js`:
`moment(date, ['MM-DD-YYYY'], true).isValid()` — a strict parse against
the single format followed by calendar validation. -/
def validateDate (s : String) : Bool :=
  match parseMMDDYYYY s with
  | some (m, d, y) => validCalendar m d y
  | none => false

/-- Digit character of a value below ten. -/
def digitChar10 (n : Nat) : Char :=
  match n with
  | 0 => '0' | 1 => '1' | 2 => '2' | 3 => '3' | 4 => '4'
  | 5 => '5' | 6 => '6' | 7 => '7' | 8 => '8' | _ => '9'

/-- Two-digit rendering of a number below 100. -/
def render2 (n : Nat) : List Char := [digitChar10 (n / 10), digitChar10 (n % 10)]

/-- Four-digit rendering of a number below 10000. -/
def render4 (n : Nat) : List Char :=
  [digitChar10 (n / 1000), digitChar10 (n / 100 % 10), digitChar10 (n / 10 % 10),
   digitChar10 (n % 10)]

/-- Spec-side definition: the strict `MM-DD-YYYY` rendering of a date. -/
def renderMMDDYYYY (m d y : Nat) : String :=
  ⟨render2 m ++ '-' :: render2 d ++ '-' :: render4 y⟩

/-- Non-strict `moment(s, 'MM-DD-YYYY')` field extraction: the dash-split
groups must be numeric but may have any width. -/
def looseGroupNat : List Char → Option Nat
  | g => if !g.isEmpty && g.all isDigitCh then
      some (g.foldl (fun acc c => 10 * acc + digitVal c) 0)
    else none

/-- Fields of a non-strict `moment(s, 'MM-DD-YYYY')` parse. -/
def momentFields (s : String) : Option (Nat × Nat × Nat) :=
  match (s.data.splitOn '-').map looseGroupNat with
  | [some m, some d, some y] => some (m, d, y)
  | _ => none

/-- A non-strict `moment(s, 'MM-DD-YYYY')` as an order-preserving numeric
date code (`isValid()` is `isSome` of this). -/
def momentCode (s : String) : Option Nat :=
  match momentFields s with
  | some (m, d, y) => if validCalendar m d y then some (y * 10000 + m * 100 + d) else none
  | none => none

/-- JavaScript truthiness of an optional query-string parameter. -/
def jsTruthy : Option String → Bool
  | some s => s != ""
  | none => false

/-! ## GET /admin/best-profession -/

/-- Responses of the best-profession handler.  The source answers a bare
404 both when `req.query.start` is falsy, when a parsed date is invalid,
and when the query yields no row. -/
inductive ProfResp where
  | notFound404
  | invalidDates400
  | okProfession (profession : String)
deriving DecidableEq, Repr

/-- HTTP status of each best-profession response. -/
def profStatus : ProfResp → Nat
  | .notFound404 => 404
  | .invalidDates400 => 400
  | .okProfession _ => 200

/-- Whether a job is paid with a payment date inside `[s, e]`. -/
def paidJobInRange (s e : Nat) (j : Job) : Bool :=
  j.paid == some true &&
    (match j.paymentDate with
     | some t => decide (s ≤ t) && decide (t ≤ e)
     | none => false)

/-- Whether a profile has, as contractor, some job paid inside the range
(the inner-joined `Contractor` contracts with their matching jobs). -/
def profileHasPaidJobInRange (db : DB) (s e : Nat) (p : Profile) : Bool :=
  db.contracts.any (fun c =>
    c.contractorId == p.id &&
      db.jobs.any (fun j => j.contractId == c.id && paidJobInRange s e j))

/-- The `Profile.findAll({limit: 1, ...})` of the best-profession handler:
profiles owning a matching paid job, truncated to one row. -/
def bestProfessionQuery (db : DB) (s e : Nat) : List Profile :=
  (db.profiles.filter (profileHasPaidJobInRange db s e)).take 1

/-- The `GET /admin/best-profession` handler.  The source tests and
validates `req.query.start` twice — `req.query.end` is never run through
`validateDate`; a date that then fails `moment(...).isValid()` yields a
bare 404, as does a missing `start` and an empty result set. -/
def bestProfessionHandler (db : DB) (startQ endQ : Option String) : ProfResp :=
  if jsTruthy startQ && jsTruthy startQ then
    let s := startQ.getD ""
    if !validateDate s || !validateDate s then .invalidDates400
    else
      match momentCode s, endQ.bind momentCode with
      | some sc, some ec =>
        match bestProfessionQuery db sc ec with
        | [] => .notFound404
        | p :: _ => .okProfession p.profession
      | _, _ => .notFound404
  else .notFound404

/-! ## GET /admin/best-clients -/

/-- A serialized row of the best-clients response. -/
structure ClientEntry where
  id : Nat
  fullName : String
  paid : ℚ
deriving DecidableEq, Repr

/-- Responses of the best-clients handler.  `queryError400` stands for the
`.catch` branch (the store rejects the query, e.g. a `BETWEEN` against an
invalid date). -/
inductive ClientsResp where
  | missingDates400
  | invalidDates400
  | queryError400
  | okClients (entries : List ClientEntry)
deriving DecidableEq, Repr

/-- HTTP status of each best-clients response. -/
def clientsStatus : ClientsResp → Nat
  | .okClients _ => 200
  | _ => 400

/-- Insert into a descending list. -/
def insertDesc (q : ℚ) : List ℚ → List ℚ
  | [] => [q]
  | x :: xs => if x < q then q :: x :: xs else x :: insertDesc q xs

/-- Insertion sort, descending. -/
def sortDesc : List ℚ → List ℚ
  | [] => []
  | x :: xs => insertDesc x (sortDesc xs)

/-- The `Job.findAll` of the best-clients handler, serialized.  The source
groups by `price` (not by client), computes `SUM(price)` per group,
orders by `price` descending and applies the limit; each emitted row
carries the client of a representative job of the group. -/
def bestClientsQuery (db : DB) (s e lim : Nat) : List ClientEntry :=
  let matching := db.jobs.filter (paidJobInRange s e)
  let prices := (sortDesc (matching.map (fun j => j.price)).dedup).take lim
  prices.filterMap (fun pr =>
    (matching.find? (fun j => j.price == pr)).bind (fun j =>
      (db.contracts.find? (fun c => c.id == j.contractId)).bind (fun c =>
        (db.findProfile c.clientId).map (fun client =>
          { id := client.id,
            fullName := client.firstName ++ " " ++ client.lastName,
            paid := ((matching.filter (fun j2 => j2.price == pr)).map
                      (fun j2 => j2.price)).sum }))))

/-- The `GET /admin/best-clients` handler.  Like best-profession it tests
and validates only `req.query.start`; a missing `start` yields 400
`Start / end dates required`; the limit defaults to 2. -/
def bestClientsHandler (db : DB) (startQ endQ : Option String) (limitQ : Option Nat) :
    ClientsResp :=
  if jsTruthy startQ && jsTruthy startQ then
    let s := startQ.getD ""
    if !validateDate s || !validateDate s then .invalidDates400
    else
      match momentCode s, endQ.bind momentCode with
      | some sc, some ec => .okClients (bestClientsQuery db sc ec (limitQ.getD 2))
      | _, _ => .queryError400
  else .missingDates400

/-! ## Lookup lemmas for the store operations -/

/-- A found profile row carries the id it was looked up by. -/
theorem findProfile_id {db : DB} {pid : Nat} {p : Profile}
    (h : db.findProfile pid = some p) : p.id = pid := by
  have := List.find?_some h
  simpa using this

/-- A balance update commutes with profile lookup: the looked-up row is
the old row, with its balance replaced when its id is the updated one. -/
theorem findProfile_updateBalance (db : DB) (pid : Nat) (b : JNum) (qid : Nat) :
    (db.updateBalance pid b).findProfile qid
      = (db.findProfile qid).map
          (fun p => if p.id == pid then { p with balance := b } else p) := by
  show (db.profiles.map _).find? _ = (db.profiles.find? _).map _
  induction db.profiles with
  | nil => rfl
  | cons p l ih =>
    have hid : (if (p.id == pid) = true then { p with balance := b } else p).id = p.id := by
      split <;> rfl
    rw [List.map_cons, List.find?_cons, List.find?_cons, hid]
    cases hq : p.id == qid
    · exact ih
    · rfl

/-- Marking a job paid does not touch the profiles. -/
theorem findProfile_markJobPaid (db : DB) (jid now qid : Nat) :
    (db.markJobPaid jid now).findProfile qid = db.findProfile qid := rfl

/-- Marking a deposit paid does not touch the profiles. -/
theorem findProfile_markDepositPaid (db : DB) (jid qid : Nat) :
    (db.markDepositPaid jid).findProfile qid = db.findProfile qid := rfl

/-- A balance update does not touch the jobs. -/
theorem findJob_updateBalance (db : DB) (pid : Nat) (b : JNum) (qid : Nat) :
    (db.updateBalance pid b).findJob qid = db.findJob qid := rfl

/-- Marking a job paid commutes with job lookup. -/
theorem findJob_markJobPaid (db : DB) (jid now qid : Nat) :
    (db.markJobPaid jid now).findJob qid
      = (db.findJob qid).map
          (fun j => if j.id == jid then { j with paid := some true, paymentDate := some now }
                    else j) := by
  show (db.jobs.map _).find? _ = (db.jobs.find? _).map _
  induction db.jobs with
  | nil => rfl
  | cons j l ih =>
    have hid :
        (if (j.id == jid) = true then { j with paid := some true, paymentDate := some now }
            else j).id
          = j.id := by
      split <;> rfl
    rw [List.map_cons, List.find?_cons, List.find?_cons, hid]
    cases hq : j.id == qid
    · exact ih
    · rfl

/-! ## C1 — successful payment -/

/-- C1: for every successful `POST /jobs/:job_id/pay` of a job with price
P, the client's balance decreases by exactly P, the contractor's balance
increases by exactly P (so the sum of the two balances is unchanged), the
job's paid flag becomes true, its `paymentDate` is set to the current
time, and the response is 200 `Paid successfully`. -/
theorem pay_success_conservation
    (db : DB) (me jobId now : Nat) (job : Job) (c : Contract)
    (client contractor : Profile) (cb kb : ℚ)
    (hfind : findJobForPay db me jobId = some (job, c))
    (hjob : db.findJob jobId = some job)
    (hcm : c.clientId = me)
    (hcl : db.findProfile c.clientId = some client)
    (hco : db.findProfile c.contractorId = some contractor)
    (hne : c.clientId ≠ c.contractorId)
    (hunpaid : job.paid ≠ some true)
    (hcb : client.balance = JNum.num cb)
    (hkb : contractor.balance = JNum.num kb)
    (hfunds : job.price ≤ cb) :
    (payHandler db me jobId now).1 = PayResp.success ∧
    payStatus (payHandler db me jobId now).1 = 200 ∧
    payMessage (payHandler db me jobId now).1 = some "Paid successfully" ∧
    (payHandler db me jobId now).2.findProfile c.clientId
      = some { client with balance := JNum.num (cb - job.price) } ∧
    (payHandler db me jobId now).2.findProfile c.contractorId
      = some { contractor with balance := JNum.num (kb + job.price) } ∧
    (cb - job.price) + (kb + job.price) = cb + kb ∧
    (payHandler db me jobId now).2.findJob jobId
      = some { job with paid := some true, paymentDate := some now } := by
  have hcid : client.id = c.clientId := findProfile_id hcl
  have hkid : contractor.id = c.contractorId := findProfile_id hco
  have hjid : job.id = jobId := by
    have := List.find?_some hfind
    simpa using this
  have hpaid : (job.paid == some true) = false :=
    beq_eq_false_iff_ne.mpr hunpaid
  have hgt : JNum.gtNum job.price (JNum.num cb) = false := by
    simp only [JNum.gtNum, decide_eq_false_iff_not, not_lt]
    exact hfunds
  have h1 : ¬ client.id = contractor.id := by
    rw [hcid, hkid]
    exact hne
  have h2 : client.id = me := by
    rw [hcid, hcm]
  have h4 : ¬ contractor.id = me := by
    rw [hkid, ← hcm]
    exact fun h => hne h.symm
  have hrun : payHandler db me jobId now
      = (.success,
          (((db.updateBalance contractor.id (JNum.num (kb + job.price))).updateBalance
              me (JNum.num (cb - job.price))).markJobPaid job.id now)) := by
    simp only [payHandler, hfind, hpaid, Bool.false_eq_true, if_false, hcl, hcb, hgt, hco,
      hkb, JNum.add, JNum.sub]
  refine ⟨by rw [hrun], by rw [hrun]; rfl, by rw [hrun]; rfl, ?_, ?_, by ring, ?_⟩
  · have h5 : ¬ me = contractor.id := fun h => h1 (h2.trans h)
    rw [hrun, findProfile_markJobPaid, findProfile_updateBalance,
      findProfile_updateBalance, hcl]
    simp [h2, h5]
  · rw [hrun, findProfile_markJobPaid, findProfile_updateBalance,
      findProfile_updateBalance, hco]
    simp [h4]
  · rw [hrun, findJob_markJobPaid, findJob_updateBalance, findJob_updateBalance, hjob]
    simp

/-- Concrete store for the payment witness: client 1 (balance 100) pays
contractor 2 (balance 5) for job 20 (price 30) under contract 10. -/
def payDB : DB :=
  ⟨[⟨1, "client", "Alice", "Ant", "", JNum.num 100⟩,
    ⟨2, "contractor", "Bob", "Builder", "welder", JNum.num 5⟩],
   [⟨10, 1, 2, "in_progress"⟩],
   [⟨20, 10, 30, none, none, none⟩]⟩

/-- Witness for `pay_success_conservation` at the concrete store. -/
theorem pay_success_conservation_witness :
    (payHandler payDB 1 20 777).1 = PayResp.success ∧
    payStatus (payHandler payDB 1 20 777).1 = 200 ∧
    payMessage (payHandler payDB 1 20 777).1 = some "Paid successfully" ∧
    (payHandler payDB 1 20 777).2.findProfile 1
      = some ⟨1, "client", "Alice", "Ant", "", JNum.num (100 - 30)⟩ ∧
    (payHandler payDB 1 20 777).2.findProfile 2
      = some ⟨2, "contractor", "Bob", "Builder", "welder", JNum.num (5 + 30)⟩ ∧
    (100 - 30 : ℚ) + (5 + 30) = 100 + 5 ∧
    (payHandler payDB 1 20 777).2.findJob 20
      = some ⟨20, 10, 30, some true, none, some 777⟩ :=
  pay_success_conservation payDB 1 20 777 ⟨20, 10, 30, none, none, none⟩
    ⟨10, 1, 2, "in_progress"⟩ ⟨1, "client", "Alice", "Ant", "", JNum.num 100⟩
    ⟨2, "contractor", "Bob", "Builder", "welder", JNum.num 5⟩ 100 5
    (by decide) (by decide) rfl (by decide) (by decide) (by decide) (by decide)
    rfl rfl (by decide)

/-! ## C2 — rejection paths of the pay handler -/

/-- Concrete store in which job 20 has no contract row, so the pay
handler's `findOne` yields no job for client 1. -/
def noJobDB : DB :=
  ⟨[⟨1, "client", "Ada", "Lee", "", JNum.num 100⟩], [], [⟨20, 10, 30, none, none, none⟩]⟩

/-- C2 (refuting the first branch): when no job matches, the handler does
answer 400 without mutating anything, but through the thrown-TypeError
path — `job.Contract.Client` is read before the `if (!job)` test — so the
message is the wrapped error text, never `No Job found`. -/
theorem pay_missing_job_throws :
    (payHandler noJobDB 1 20 0).1 = PayResp.thrownTypeError ∧
    (payHandler noJobDB 1 20 0).1 ≠ PayResp.noJobFound ∧
    payStatus (payHandler noJobDB 1 20 0).1 = 400 ∧
    payMessage (payHandler noJobDB 1 20 0).1 ≠ some "No Job found" ∧
    (payHandler noJobDB 1 20 0).2 = noJobDB :=
  ⟨rfl, by decide, rfl, by decide, rfl⟩

/-! ## C3 and C4 — the deposit loop against the running balance -/

/-- The client used by the deposit counterexamples: balance 40. -/
def depClient : Profile := ⟨1, "client", "Cara", "Cole", "", JNum.num 40⟩

/-- Store with two unpaid jobs of price 100 (deposit 25 each) between
client 1 (balance 40) and contractor 2. -/
def depDB2 : DB :=
  ⟨[depClient, ⟨2, "contractor", "Ken", "Weld", "welder", JNum.num 0⟩],
   [⟨10, 1, 2, "in_progress"⟩],
   [⟨20, 10, 100, none, none, none⟩, ⟨21, 10, 100, none, none, none⟩]⟩

/-- C3 (refuting): starting from all-non-negative balances, one deposit
request leaves client 1's stored balance `nan` — the second iteration's
guard compares against the clobbered `profile.balance` and the update
writes `undefined - 25`.  A `nan` balance is not a non-negative amount. -/
theorem deposit_sets_balance_to_nan :
    (∀ p ∈ depDB2.profiles, p.balance.nonnegB = true) ∧
    ((depositHandler depDB2 depClient 2).2.findProfile 1).map (fun p => p.balance)
      = some JNum.nan ∧
    JNum.nonnegB JNum.nan = false := by
  refine ⟨by decide, ?_, rfl⟩
  norm_num +decide [depositHandler, depositCandidates, depositLoop, DB.updateBalance,
    DB.markDepositPaid, DB.findProfile, JNum.gtNum, JNum.sub, JNum.add, depClient, depDB2]

/-- Store with three unpaid jobs of price 100 (deposit 25 each) between
client 1 (balance 40) and contractor 2, the scenario named by C4. -/
def depDB3 : DB :=
  ⟨[depClient, ⟨2, "contractor", "Ken", "Weld", "welder", JNum.num 0⟩],
   [⟨10, 1, 2, "in_progress"⟩],
   [⟨20, 10, 100, none, none, none⟩, ⟨21, 10, 100, none, none, none⟩,
    ⟨22, 10, 100, none, none, none⟩]⟩

/-- C4 (refuting): with prices `[100, 100, 100]` and balance 40 the
handler reports all three deposits applied (`totalJobsPaid = 3`,
`paid = 75`), not the claimed single deposit — after the first success
`profile` holds `Profile.update`'s result, its `balance` is `undefined`,
and the skip guard never fires again. -/
theorem deposit_ignores_running_balance :
    (depositHandler depDB3 depClient 2).1 = DepResp.ok 3 75 3 ∧
    (depositHandler depDB3 depClient 2).1 ≠ DepResp.ok 3 25 1 := by
  have h : (depositHandler depDB3 depClient 2).1 = DepResp.ok 3 75 3 := by
    norm_num +decide [depositHandler, depositCandidates, depositLoop, DB.updateBalance,
      DB.markDepositPaid, DB.findProfile, JNum.gtNum, JNum.sub, JNum.add, depClient, depDB3]
  refine ⟨h, ?_⟩
  rw [h]
  intro hcontra
  have : (75 : ℚ) = 25 := by injection hcontra
  norm_num at this

/-! ## C10 — all candidate deposits skipped -/

/-- When every candidate's deposit exceeds the (still untouched) running
balance the loop mutates nothing and accumulates nothing. -/
theorem depositLoop_all_skipped (me : Nat) (l : List (Job × Contract × Profile)) (db : DB)
    (b tp : ℚ) (tj : Nat)
    (hall : ∀ x ∈ l, b < 25 / 100 * x.1.price) :
    depositLoop me l db (JNum.num b) tp tj = (db, tp, tj) := by
  induction l with
  | nil => rfl
  | cons x rest ih =>
    obtain ⟨job, c, contractor⟩ := x
    have hx : b < 25 / 100 * job.price := hall _ (List.mem_cons_self _ _)
    have hgt : JNum.gtNum (25 / 100 * job.price) (JNum.num b) = true := by
      simpa [JNum.gtNum] using hx
    simp only [depositLoop, hgt, if_true]
    exact ih (fun y hy => hall y (List.mem_cons_of_mem _ hy))

/-- C10: a deposit request whose candidate set is non-empty but where
every job's deposit exceeds the caller's balance still answers 200
`Deposit paid`, with `paid = 0`, `totalJobsPaid = 0`, `jobs` the number
of candidates, and no store mutation. -/
theorem deposit_all_skipped_ok
    (db : DB) (reqp : Profile) (userId : Nat) (b : ℚ)
    (hb : reqp.balance = JNum.num b)
    (hnonempty : depositCandidates db reqp.id userId ≠ [])
    (hall : ∀ x ∈ depositCandidates db reqp.id userId, b < 25 / 100 * x.1.price) :
    depositHandler db reqp userId
      = (DepResp.ok (depositCandidates db reqp.id userId).length 0 0, db) ∧
    depStatus (depositHandler db reqp userId).1 = 200 ∧
    depMessage (depositHandler db reqp userId).1 = "Deposit paid" := by
  have hne' : (depositCandidates db reqp.id userId).length ≠ 0 :=
    fun h => hnonempty (List.length_eq_zero.mp h)
  have hlen : ((depositCandidates db reqp.id userId).length == 0) = false :=
    beq_eq_false_iff_ne.mpr hne'
  have hloop := depositLoop_all_skipped reqp.id (depositCandidates db reqp.id userId) db b 0 0 hall
  have heq : depositHandler db reqp userId
      = (DepResp.ok (depositCandidates db reqp.id userId).length 0 0, db) := by
    simp only [depositHandler, hlen, Bool.false_eq_true, if_false, hb, hloop]
  exact ⟨heq, by rw [heq]; rfl, by rw [heq]; rfl⟩

/-- Store for the all-skipped witness: one unpaid job of price 100
(deposit 25) against a client balance of 10. -/
def skipDB : DB :=
  ⟨[⟨1, "client", "Sam", "Kim", "", JNum.num 10⟩,
    ⟨2, "contractor", "Tia", "Ume", "welder", JNum.num 0⟩],
   [⟨10, 1, 2, "in_progress"⟩],
   [⟨20, 10, 100, none, none, none⟩]⟩

/-- The caller of the all-skipped witness. -/
def skipClient : Profile := ⟨1, "client", "Sam", "Kim", "", JNum.num 10⟩

/-- Witness for `deposit_all_skipped_ok` at the concrete store. -/
theorem deposit_all_skipped_ok_witness :
    depositHandler skipDB skipClient 2
      = (DepResp.ok (depositCandidates skipDB skipClient.id 2).length 0 0, skipDB) ∧
    depStatus (depositHandler skipDB skipClient 2).1 = 200 ∧
    depMessage (depositHandler skipDB skipClient 2).1 = "Deposit paid" :=
  deposit_all_skipped_ok skipDB skipClient 2 10 rfl (by decide)
    (by norm_num +decide [depositCandidates, DB.findProfile, skipDB])

/-! ## C5 and C6 — the ownership-scoped list endpoints -/

/-- The source's ownership filter decides exactly the spec-side ownership
predicate. -/
theorem ownsContractFilter_eq_true (p : Profile) (c : Contract) :
    ownsContractFilter p c = true ↔ ownsSpec p c := by
  unfold ownsContractFilter ownsSpec
  by_cases hty : p.ptype = "client" <;> simp [hty]

/-- C5: for an actor and a job under a (unique) contract, `GET /jobs/unpaid`
returns the job iff the job is stored, its `paid` is not true, the
contract is `in_progress`, and the actor owns the contract — jobs under
contracts the actor does not own are never included. -/
theorem unpaidJobs_membership (db : DB) (p : Profile) (j : Job) (c : Contract)
    (hc : c ∈ db.contracts) (hcid : c.id = j.contractId)
    (huniq : ∀ c' ∈ db.contracts, c'.id = j.contractId → c' = c) :
    j ∈ unpaidJobsHandler db p ↔
      j ∈ db.jobs ∧ j.paid ≠ some true ∧ c.status = "in_progress" ∧ ownsSpec p c := by
  unfold unpaidJobsHandler
  rw [List.mem_filter]
  simp only [Bool.and_eq_true, bne_iff_ne, ne_eq, List.any_eq_true, beq_iff_eq,
    ownsContractFilter_eq_true]
  constructor
  · rintro ⟨hmem, hpaid, c', hc', ⟨hid', hst'⟩, hown'⟩
    have hcc : c' = c := huniq c' hc' hid'
    subst hcc
    exact ⟨hmem, hpaid, hst', hown'⟩
  · rintro ⟨hmem, hpaid, hst, hown⟩
    exact ⟨hmem, hpaid, c, hc, ⟨hcid, hst⟩, hown⟩

/-- Concrete store for the unpaid-jobs witness. -/
def unpaidDB : DB :=
  ⟨[], [⟨10, 1, 2, "in_progress"⟩], [⟨20, 10, 50, none, none, none⟩]⟩

/-- The caller of the unpaid-jobs witness. -/
def unpaidCaller : Profile := ⟨1, "client", "Uma", "Vee", "", JNum.num 0⟩

/-- Witness for `unpaidJobs_membership` at the concrete store. -/
theorem unpaidJobs_membership_witness :
    (⟨20, 10, 50, none, none, none⟩ : Job) ∈ unpaidJobsHandler unpaidDB unpaidCaller ↔
      (⟨20, 10, 50, none, none, none⟩ : Job) ∈ unpaidDB.jobs ∧
      (none : Option Bool) ≠ some true ∧
      ("in_progress" : String) = "in_progress" ∧
      ownsSpec unpaidCaller ⟨10, 1, 2, "in_progress"⟩ :=
  unpaidJobs_membership unpaidDB unpaidCaller ⟨20, 10, 50, none, none, none⟩
    ⟨10, 1, 2, "in_progress"⟩ (by decide) rfl (by decide)

/-- C6: `GET /contracts` returns exactly the stored contracts the actor
owns whose status is not `terminated`; in particular no returned contract
has status `terminated`. -/
theorem contracts_scope (db : DB) (p : Profile) :
    (∀ c ∈ contractsHandler db p, c.status ≠ "terminated") ∧
    (∀ c : Contract, c ∈ contractsHandler db p ↔
       c ∈ db.contracts ∧ c.status ≠ "terminated" ∧ ownsSpec p c) := by
  have hmem : ∀ c : Contract, c ∈ contractsHandler db p ↔
      c ∈ db.contracts ∧ c.status ≠ "terminated" ∧ ownsSpec p c := by
    intro c
    unfold contractsHandler
    rw [List.mem_filter]
    simp [Bool.and_eq_true, bne_iff_ne, ownsContractFilter_eq_true]
  exact ⟨fun c hc => ((hmem c).mp hc).2.1, hmem⟩

/-! ## C7 — best-profession date validation -/

/-- C7 (refuting the 400-on-malformed-end part): with a well-formed
`start` and a malformed `end` (`13-01-2020`), the handler answers 404,
not 400 — the source runs `validateDate` on `req.query.start` twice and
never on `req.query.end`, whose malformed value only surfaces through the
`isValid()` test that answers a bare 404. -/
theorem bestProfession_end_never_validated :
    bestProfessionHandler ⟨[], [], []⟩ (some "01-01-2020") (some "13-01-2020")
      = ProfResp.notFound404 ∧
    profStatus (bestProfessionHandler ⟨[], [], []⟩ (some "01-01-2020") (some "13-01-2020"))
      = 404 ∧
    bestProfessionHandler ⟨[], [], []⟩ (some "01-01-2020") (some "13-01-2020")
      ≠ ProfResp.invalidDates400 :=
  ⟨by decide, by decide, by decide⟩

/-! ## C8 — best-clients ranking -/

/-- Concrete store for the best-clients counterexample: client 1 (Alice
Ant) has two paid jobs of price 100 in range (total 200); client 2 (Bob
Bee) has one paid job of price 150 in range (total 150). -/
def bcDB : DB :=
  ⟨[⟨1, "client", "Alice", "Ant", "", JNum.num 0⟩,
    ⟨2, "client", "Bob", "Bee", "", JNum.num 0⟩,
    ⟨9, "contractor", "Cy", "Dee", "welder", JNum.num 0⟩],
   [⟨100, 1, 9, "in_progress"⟩, ⟨101, 2, 9, "in_progress"⟩],
   [⟨200, 100, 100, some true, none, some 20200315⟩,
    ⟨201, 100, 100, some true, none, some 20200316⟩,
    ⟨202, 101, 150, some true, none, some 20200317⟩]⟩

/-- C8 (refuting): with `limit = 1` the handler returns Bob (group price
150, group total 150), not Alice whose summed total 200 is the largest —
the query groups and orders by job `price`, not by client total. -/
theorem bestClients_ranked_by_price_not_total :
    bestClientsHandler bcDB (some "01-01-2020") (some "12-31-2020") (some 1)
      = ClientsResp.okClients [⟨2, "Bob Bee", 150⟩] ∧
    bestClientsHandler bcDB (some "01-01-2020") (some "12-31-2020") (some 1)
      ≠ ClientsResp.okClients [⟨1, "Alice Ant", 200⟩] := by
  have h : bestClientsHandler bcDB (some "01-01-2020") (some "12-31-2020") (some 1)
      = ClientsResp.okClients [⟨2, "Bob Bee", 150⟩] := by
    have hs : momentCode "01-01-2020" = some 20200101 := by decide
    have he : momentCode "12-31-2020" = some 20201231 := by decide
    have e1 : ((100 : ℚ) == 150) = false := by decide
    have e2 : ((150 : ℚ) == 150) = true := by decide
    norm_num +decide [bestClientsHandler, bestClientsQuery, bcDB, jsTruthy, hs, he,
      paidJobInRange, sortDesc, insertDesc, DB.findProfile, List.dedup_nil,
      List.dedup_cons_of_mem, List.dedup_cons_of_not_mem, e1, e2,
      List.sum_cons, List.sum_nil, List.filterMap_cons, List.filterMap_nil,
      List.find?_cons, List.find?_nil, List.filter_cons, List.filter_nil]
  refine ⟨h, ?_⟩
  rw [h]
  intro hcontra
  have h2 : (⟨2, "Bob Bee", 150⟩ : ClientEntry) = ⟨1, "Alice Ant", 200⟩ := by
    have := hcontra
    injection this with hlist
    injection hlist
  have h3 : (2 : Nat) = 1 := congrArg ClientEntry.id h2
  omega

/-! ## C9 — strict date validation -/

/-- Rendering a digit value and reading it back is the identity. -/
theorem digitVal_digitChar10 {k : Nat} (hk : k ≤ 9) : digitVal (digitChar10 k) = k := by
  interval_cases k <;> decide

/-- Rendered digit values are digit characters. -/
theorem isDigitCh_digitChar10 {k : Nat} (hk : k ≤ 9) : isDigitCh (digitChar10 k) = true := by
  interval_cases k <;> decide

/-- The ten digit characters. -/
theorem isDigitCh_cases {c : Char} (h : isDigitCh c = true) :
    c = '0' ∨ c = '1' ∨ c = '2' ∨ c = '3' ∨ c = '4' ∨
    c = '5' ∨ c = '6' ∨ c = '7' ∨ c = '8' ∨ c = '9' := by
  unfold isDigitCh at h
  simp only [Bool.or_eq_true, beq_iff_eq] at h
  tauto

/-- Reading a digit character and rendering it back is the identity. -/
theorem digitChar10_digitVal {c : Char} (h : isDigitCh c = true) :
    digitChar10 (digitVal c) = c := by
  rcases isDigitCh_cases h with h' | h' | h' | h' | h' | h' | h' | h' | h' | h' <;>
    subst h' <;> decide

/-- A digit character's value is below ten. -/
theorem digitVal_le_nine {c : Char} (h : isDigitCh c = true) : digitVal c ≤ 9 := by
  rcases isDigitCh_cases h with h' | h' | h' | h' | h' | h' | h' | h' | h' | h' <;>
    subst h' <;> decide

/-- Every month length is at most 31. -/
theorem daysInMonth_le (y m : Nat) : daysInMonth y m ≤ 31 := by
  unfold daysInMonth
  split
  · split <;> omega
  · split <;> omega

/-- Strict field extraction succeeds on every in-range rendering and
recovers the rendered numbers. -/
theorem parseFieldsL_render (m d y : Nat) (hm : m ≤ 99) (hd : d ≤ 99) (hy : y ≤ 9999) :
    parseFieldsL (render2 m ++ '-' :: render2 d ++ '-' :: render4 y) = some (m, d, y) := by
  have hm1 : m / 10 ≤ 9 := by omega
  have hm2 : m % 10 ≤ 9 := by omega
  have hd1 : d / 10 ≤ 9 := by omega
  have hd2 : d % 10 ≤ 9 := by omega
  have hy1 : y / 1000 ≤ 9 := by omega
  have hy2 : y / 100 % 10 ≤ 9 := by omega
  have hy3 : y / 10 % 10 ≤ 9 := by omega
  have hy4 : y % 10 ≤ 9 := by omega
  have hcond : (isDigitCh (digitChar10 (m / 10)) && isDigitCh (digitChar10 (m % 10)) &&
      isDigitCh (digitChar10 (d / 10)) && isDigitCh (digitChar10 (d % 10)) &&
      isDigitCh (digitChar10 (y / 1000)) && isDigitCh (digitChar10 (y / 100 % 10)) &&
      isDigitCh (digitChar10 (y / 10 % 10)) && isDigitCh (digitChar10 (y % 10))) = true := by
    simp [isDigitCh_digitChar10, hm1, hm2, hd1, hd2, hy1, hy2, hy3, hy4]
  simp only [render2, render4, List.cons_append, List.nil_append, parseFieldsL]
  rw [if_pos hcond]
  simp only [digitVal_digitChar10 hm1, digitVal_digitChar10 hm2, digitVal_digitChar10 hd1,
    digitVal_digitChar10 hd2, digitVal_digitChar10 hy1, digitVal_digitChar10 hy2,
    digitVal_digitChar10 hy3, digitVal_digitChar10 hy4, Option.some.injEq,
    Prod.mk.injEq]
  omega

/-- A successful strict field extraction means the input is exactly the
rendering of the extracted, in-range numbers. -/
theorem parseFieldsL_eq_some {l : List Char} {m d y : Nat}
    (h : parseFieldsL l = some (m, d, y)) :
    m ≤ 99 ∧ d ≤ 99 ∧ y ≤ 9999 ∧
      l = render2 m ++ '-' :: render2 d ++ '-' :: render4 y := by
  unfold parseFieldsL at h
  split at h
  next m1 m2 d1 d2 y1 y2 y3 y4 =>
    by_cases hdig : (isDigitCh m1 && isDigitCh m2 && isDigitCh d1 && isDigitCh d2 &&
        isDigitCh y1 && isDigitCh y2 && isDigitCh y3 && isDigitCh y4) = true
    case neg =>
      rw [if_neg hdig] at h
      exact absurd h (by simp)
    case pos =>
      rw [if_pos hdig] at h
      simp only [Bool.and_eq_true] at hdig
      obtain ⟨⟨⟨⟨⟨⟨⟨h1, h2⟩, h3⟩, h4⟩, h5⟩, h6⟩, h7⟩, h8⟩ := hdig
      have v1 := digitVal_le_nine h1
      have v2 := digitVal_le_nine h2
      have v3 := digitVal_le_nine h3
      have v4 := digitVal_le_nine h4
      have v5 := digitVal_le_nine h5
      have v6 := digitVal_le_nine h6
      have v7 := digitVal_le_nine h7
      have v8 := digitVal_le_nine h8
      obtain ⟨hm, hd, hy⟩ : 10 * digitVal m1 + digitVal m2 = m ∧
          10 * digitVal d1 + digitVal d2 = d ∧
          1000 * digitVal y1 + 100 * digitVal y2 + 10 * digitVal y3 + digitVal y4 = y := by
        have := h
        simp only [Option.some.injEq, Prod.mk.injEq] at this
        exact ⟨this.1, this.2.1, this.2.2⟩
      refine ⟨by omega, by omega, by omega, ?_⟩
      have e1 : m / 10 = digitVal m1 := by omega
      have e2 : m % 10 = digitVal m2 := by omega
      have e3 : d / 10 = digitVal d1 := by omega
      have e4 : d % 10 = digitVal d2 := by omega
      have e5 : y / 1000 = digitVal y1 := by omega
      have e6 : y / 100 % 10 = digitVal y2 := by omega
      have e7 : y / 10 % 10 = digitVal y3 := by omega
      have e8 : y % 10 = digitVal y4 := by omega
      simp only [render2, render4, e1, e2, e3, e4, e5, e6, e7, e8,
        digitChar10_digitVal h1, digitChar10_digitVal h2, digitChar10_digitVal h3,
        digitChar10_digitVal h4, digitChar10_digitVal h5, digitChar10_digitVal h6,
        digitChar10_digitVal h7, digitChar10_digitVal h8, List.cons_append,
        List.nil_append]
  next => exact absurd h (by simp)

/-- C9: `validateDate` accepts exactly the strict `MM-DD-YYYY` renderings
of valid calendar dates; in particular `13-01-2020` is rejected,
`02-29-2020` (leap year) is accepted and `02-29-2021` is rejected. -/
theorem validateDate_characterization :
    validateDate "13-01-2020" = false ∧
    validateDate "02-29-2020" = true ∧
    validateDate "02-29-2021" = false ∧
    ∀ s : String, validateDate s = true ↔
      ∃ m d y, validCalendar m d y = true ∧ y ≤ 9999 ∧ s = renderMMDDYYYY m d y := by
  refine ⟨by decide, by decide, by decide, fun s => ⟨?_, ?_⟩⟩
  · intro hv
    unfold validateDate parseMMDDYYYY at hv
    rcases hp : parseFieldsL s.data with _ | ⟨⟨m, d, y⟩⟩
    · rw [hp] at hv
      exact absurd hv (by simp)
    · rw [hp] at hv
      obtain ⟨hm, hd, hy, hl⟩ := parseFieldsL_eq_some hp
      refine ⟨m, d, y, hv, hy, ?_⟩
      apply String.ext
      exact hl
  · rintro ⟨m, d, y, hval, hy, rfl⟩
    have hm : m ≤ 99 := by
      have := hval
      simp only [validCalendar, Bool.and_eq_true, decide_eq_true_eq] at this
      omega
    have hd : d ≤ 99 := by
      have h' := hval
      simp only [validCalendar, Bool.and_eq_true, decide_eq_true_eq] at h'
      have := daysInMonth_le y m
      omega
    unfold validateDate parseMMDDYYYY renderMMDDYYYY
    rw [show (String.mk (render2 m ++ '-' :: render2 d ++ '-' :: render4 y)).data
        = render2 m ++ '-' :: render2 d ++ '-' :: render4 y from rfl]
    rw [parseFieldsL_render m d y hm hd hy]
    exact hval

end DeelApi
